import Mathlib

/-!
Verification development for the SVCheck client (`src/classes/SV_utils.py`,
class `SV_system`): a REST client that authenticates against a storage
array, gates each command on a role policy, runs a fixed battery of
inventory commands and aggregates the results into a multi-sheet
spreadsheet report.

The Python class is embedded shallowly:

* network and filesystem effects are supplied by an oracle (`NetEnv`)
  giving the result of the n-th connectivity probe, the n-th API POST and
  the n-th workbook save;
* mutable object state (`first_run`, the report file on disk, the
  consumed-oracle counters, the observable event trace) lives in
  `RunState`, threaded explicitly;
* `sys.exit(n)` becomes `Except.error (Err.exit n)`; an unhandled Python
  exception (KeyError, IndexError, TypeError, AttributeError, missing
  file) becomes `Except.error Err.exception`;
* decoded JSON payloads are `Json` values (strings, objects, arrays: the
  payload shapes this API produces and the code inspects).
-/

/-- Terminal outcome of a failing step: `exit n` is `sys.exit(n)`,
`exception` is an unhandled Python exception. -/
inductive Err where
  | exit (code : Nat)
  | exception
deriving DecidableEq, Repr

/-- Decoded JSON values as the code consumes them. -/
inductive Json where
  | str (s : String)
  | obj (fields : List (String × Json))
  | arr (elems : List Json)

/-- A record: one decoded JSON object, an insertion-ordered key-value list
(Python `dict` semantics). -/
abbrev Record := List (String × Json)

/-- `p.isPrefixOf`-style character test, written out so that proofs can
recurse on it: `hasPref p s` is Python `s.startswith(p)` on char lists. -/
def hasPref : List Char → List Char → Bool
  | [], _ => true
  | _ :: _, [] => false
  | a :: p, b :: s => a == b && hasPref p s

/-- Python `command.startswith(p)`. -/
def strStartsWith (s p : String) : Bool := hasPref p.data s.data

/-- Source line 112: `CopyOperator_roles` (duplicate entry kept as written). -/
def CopyOperator_roles : List String :=
  ["Administrator", "SecurityAdmin", "CopyOperator", "SecurityAdmin"]

/-- Source line 113: `Admin_roles` (duplicate entry kept as written). -/
def Admin_roles : List String :=
  ["Administrator", "SecurityAdmin", "SecurityAdmin"]

/-- Condition of the first branch of `__check_user_rights` (line 115). -/
def isReadName (command : String) : Bool := strStartsWith command "ls"

/-- Condition of the second branch of `__check_user_rights` (lines 118-123). -/
def isLifecycleName (command : String) : Bool :=
  strStartsWith command "start" || strStartsWith command "stop" ||
  strStartsWith command "prestart" || strStartsWith command "prestop"

/-- Condition of the third branch of `__check_user_rights` (lines 131-138). -/
def isMutateName (command : String) : Bool :=
  strStartsWith command "add" || strStartsWith command "ch" ||
  command == "expandvdisksize" || strStartsWith command "mk" ||
  command == "movevdisk" || strStartsWith command "rm"

/-- `SV_system.__check_user_rights` (lines 109-147).  The session role is
`Option String` because during `__init__` the command `lscurrentuser` is
issued before `self.user_role` is assigned; reading the attribute in the
role-gated branches would then raise `AttributeError`. -/
def check_user_rights (command : String) (role : Option String) : Except Err Bool :=
  if isReadName command then .ok true
  else if isLifecycleName command then
    match role with
    | none => .error .exception
    | some r => if CopyOperator_roles.contains r then .ok true else .error (.exit 5)
  else if isMutateName command then
    match role with
    | none => .error .exception
    | some r => if Admin_roles.contains r then .ok true else .error (.exit 5)
  else .ok false

/-- Observable steps of a run: the TCP connectivity probe of
`__check_connection`, the entry into `__check_user_rights`, an HTTP POST
to the REST API, and a workbook save. -/
inductive Ev where
  | probe
  | rightsCheck (command : String)
  | apiPost (url : String)
  | save
deriving DecidableEq, Repr

def Ev.isRightsCheck : Ev → Bool
  | .rightsCheck _ => true
  | _ => false

def Ev.isApiPost : Ev → Bool
  | .apiPost _ => true
  | _ => false

/-- `socket.settimeout(2.0)` at line 187: the fixed probe timeout, in
seconds. -/
def settimeout_seconds : Nat := 2

/-- External-world oracle: result of the n-th `connect_ex` probe (0 means
the port is open), status and decoded body of the n-th API POST, and
whether the n-th `wb.save` succeeds. -/
structure NetEnv where
  probes : Nat → Nat
  responses : Nat → Nat × Json
  saves : Nat → Bool

/-! ### SheetFormatter (`__format_sheet`, lines 296-342)

Cell and column styles are modelled positionally: a sheet's visual state
is its cell grid dimensions plus, per column, an optional width and, per
cell, optional font / fill / alignment attributes.  Only the attribute
values the source writes are represented. -/

/-- The `Font(...)` constructor arguments used at lines 310-317. -/
structure FontS where
  name : String
  size : Nat
  bold : Bool
  italic : Bool
  underline : String
  strike : Bool
  color : String
deriving DecidableEq, Repr

/-- The `PatternFill(...)` constructor arguments used at lines 320/335/339. -/
structure FillS where
  start_color : String
  end_color : String
  fill_type : String
deriving DecidableEq, Repr

/-- The `Alignment(...)` constructor arguments used at lines 327-328. -/
structure AlignS where
  horizontal : String
  vertical : String
deriving DecidableEq, Repr

structure CellStyle where
  font : Option FontS
  fill : Option FillS
  align : Option AlignS
deriving DecidableEq, Repr

/-- Visual state of one worksheet: content dimensions (rows × columns,
1-indexed as in openpyxl) plus the per-column widths and per-cell styles. -/
structure SheetF where
  nRows : Nat
  nCols : Nat
  colWidth : Nat → Option Nat
  cells : Nat → Nat → CellStyle

/-- `HEADER_FONT` (lines 310-317). -/
def HEADER_FONT : FontS :=
  { name := "Calibri", size := 12, bold := true, italic := false,
    underline := "none", strike := false, color := "000000" }

/-- Header fill (line 320). -/
def headerFill : FillS :=
  { start_color := "0066CC", end_color := "0066CC", fill_type := "darkGrid" }

/-- Fill of even data rows (line 335). -/
def evenFill : FillS :=
  { start_color := "66cc00", end_color := "66cc00", fill_type := "darkGrid" }

/-- Fill of odd data rows from row 3 on (line 339). -/
def oddFill : FillS :=
  { start_color := "b3ff66", end_color := "b3ff66", fill_type := "lightGrid" }

/-- Center alignment applied to every cell (lines 327-328). -/
def centerAlign : AlignS := { horizontal := "center", vertical := "center" }

/-- Lines 300-306: a fresh `DimensionHolder` with every content column set
to width 25 replaces the sheet's column dimensions wholesale. -/
def setWidths (s : SheetF) : SheetF :=
  { s with colWidth := fun c => if 1 ≤ c ∧ c ≤ s.nCols then some 25 else none }

/-- Lines 308-321: header font and fill on row 1. -/
def setHeader (s : SheetF) : SheetF :=
  { s with cells := fun r c =>
      if r = 1 ∧ 1 ≤ c ∧ c ≤ s.nCols then
        { s.cells r c with font := some HEADER_FONT, fill := some headerFill }
      else s.cells r c }

/-- Lines 323-329: every cell of `iter_rows` is center-aligned. -/
def centerAll (s : SheetF) : SheetF :=
  { s with cells := fun r c =>
      if 1 ≤ r ∧ r ≤ s.nRows ∧ 1 ≤ c ∧ c ≤ s.nCols then
        { s.cells r c with align := some centerAlign }
      else s.cells r c }

/-- Lines 333-335: `range(2, max_row + 1, 2)`. -/
def bandEven (s : SheetF) : SheetF :=
  { s with cells := fun r c =>
      if 2 ≤ r ∧ r ≤ s.nRows ∧ r % 2 = 0 ∧ 1 ≤ c ∧ c ≤ s.nCols then
        { s.cells r c with fill := some evenFill }
      else s.cells r c }

/-- Lines 337-339: `range(3, max_row + 1, 2)`. -/
def bandOdd (s : SheetF) : SheetF :=
  { s with cells := fun r c =>
      if 3 ≤ r ∧ r ≤ s.nRows ∧ r % 2 = 1 ∧ 1 ≤ c ∧ c ≤ s.nCols then
        { s.cells r c with fill := some oddFill }
      else s.cells r c }

/-- `SV_system.__format_sheet` (lines 296-342), as the sequence of its
four style passes. -/
def format_sheet (s : SheetF) : SheetF :=
  bandOdd (bandEven (centerAll (setHeader (setWidths s))))

/-- One sheet of the report workbook: title, appended rows (a cell is
`none` where pandas emitted a missing value), and its visual style. -/
structure Sheet where
  name : String
  rows : List (List (Option Json))
  style : SheetF

/-- Mutable state of the run: how much of each oracle stream has been
consumed, the `first_run` flag, the report file on disk (`none` while no
save has completed), and the observable event trace. -/
structure RunState where
  nextProbe : Nat
  nextPost : Nat
  nextSave : Nat
  first_run : Bool
  disk : Option (List Sheet)
  events : List Ev

/-- The state a run starts in (`__init__`, lines 30-44: `first_run = True`,
the timestamped report file does not exist yet). -/
def initState : RunState :=
  { nextProbe := 0, nextPost := 0, nextSave := 0,
    first_run := true, disk := none, events := [] }

/-- Sheet names of the report file on disk, in order ([] while no file
exists). -/
def diskNames (s : RunState) : List String :=
  match s.disk with
  | some sheets => sheets.map Sheet.name
  | none => []

/-! ### Transport and session (`__check_connection`, `__get_token`,
`__get_user_role`, `run_command`) -/

/-- `SV_system.__check_connection` (lines 185-198): one `connect_ex`
probe.  When `connect_ex` returns non-zero the socket is not connected,
so the unconditional `sv_api_check.shutdown(socket.SHUT_RDWR)` at line
191 raises `OSError` (ENOTCONN) before the `if open_port != 0` test —
the failed-probe path ends in an unhandled exception, and the
`sys.exit(6)` at line 196 is unreachable. -/
def check_connection (env : NetEnv) (s : RunState) : Except Err Unit × RunState :=
  let r := env.probes s.nextProbe
  let s' := { s with nextProbe := s.nextProbe + 1, events := s.events ++ [Ev.probe] }
  if r ≠ 0 then (.error .exception, s') else (.ok (), s')

/-- One `requests.post` to `base_url + url`, returning the status code and
decoded body supplied by the oracle. -/
def post (env : NetEnv) (url : String) (s : RunState) : Nat × Json × RunState :=
  let p := env.responses s.nextPost
  (p.1, p.2, { s with nextPost := s.nextPost + 1, events := s.events ++ [Ev.apiPost url] })

/-- `SV_system.run_command` (lines 66-88): probe, rights check, one POST;
HTTP 200 yields the decoded body, anything else is `sys.exit(3)` (the
`has_right` flag only selects the log message). -/
def run_command (env : NetEnv) (role : Option String) (command : String)
    (s : RunState) : Except Err Json × RunState :=
  match check_connection env s with
  | (.error e, s1) => (.error e, s1)
  | (.ok _, s1) =>
    let s2 := { s1 with events := s1.events ++ [Ev.rightsCheck command] }
    match check_user_rights command role with
    | .error e => (.error e, s2)
    | .ok _hasRight =>
      let pr := post env command s2
      if pr.1 == 200 then (.ok pr.2.1, pr.2.2) else (.error (.exit 3), pr.2.2)

/-- `SV_system.__get_token` (lines 201-214): probe, POST to `auth`;
non-200 is `sys.exit(4)`; on 200 the token is `token_d['token']`
(`KeyError` / `TypeError` if the body is not an object with that key). -/
def get_token (env : NetEnv) (s : RunState) : Except Err Json × RunState :=
  match check_connection env s with
  | (.error e, s1) => (.error e, s1)
  | (.ok _, s1) =>
    let pr := post env "auth" s1
    if pr.1 == 200 then
      match pr.2.1 with
      | .obj fields =>
        match fields.lookup "token" with
        | some t => (.ok t, pr.2.2)
        | none => (.error .exception, pr.2.2)
      | _ => (.error .exception, pr.2.2)
    else (.error (.exit 4), pr.2.2)

/-- Line 104-105: `current_user[1]["role"]`, then the role is interpolated
into a log string.  Any shape other than an array whose element 1 is an
object carrying a string under `"role"` raises (IndexError, KeyError or
TypeError). -/
def extract_role (cu : Json) : Except Err String :=
  match cu with
  | .arr elems =>
    match elems.get? 1 with
    | some (.obj fields) =>
      match fields.lookup "role" with
      | some (.str r) => .ok r
      | some _ => .error .exception
      | none => .error .exception
    | some _ => .error .exception
    | none => .error .exception
  | _ => .error .exception

/-- `SV_system.__get_user_role` (lines 101-106): issue `lscurrentuser`
through `run_command` (with the role attribute still unset) and extract
the role from the response. -/
def get_user_role (env : NetEnv) (s : RunState) : Except Err String × RunState :=
  match run_command env none "lscurrentuser" s with
  | (.error e, s1) => (.error e, s1)
  | (.ok cu, s1) =>
    match extract_role cu with
    | .ok r => (.ok r, s1)
    | .error e => (.error e, s1)

/-- The session-establishing part of `__init__` (lines 42-43): token, then
role.  On success both are returned as immutable values; `RunState`
carries neither, so nothing later in the run can change them. -/
def authenticate (env : NetEnv) (s : RunState) : Except Err (Json × String) × RunState :=
  match get_token env s with
  | (.error e, s1) => (.error e, s1)
  | (.ok tok, s1) =>
    match get_user_role env s1 with
    | (.error e, s2) => (.error e, s2)
    | (.ok r, s2) => (.ok (tok, r), s2)

/-! ### ReportAggregator: the `lssystem` transform
(`__format_lssystem_to_excel`, lines 217-255) -/

/-- The fixed `(column label, response key)` pairs of the summary dict
literal (lines 221-248), in source order; the commented-out entries
`quorum_lease` ("Quorum lease") and `has_nas_key` ("NAS key") are absent. -/
def fixedFields : List (String × String) :=
  [("Product name", "product_name"),
   ("Product model", "name"),
   ("Serial", "id"),
   ("Code level", "code_level"),
   ("Console IP", "console_IP"),
   ("Contact organization", "email_organization"),
   ("Contact name", "email_contact"),
   ("Contact email", "email_reply"),
   ("Contact phone", "email_contact_primary"),
   ("Auth service", "auth_service_configured"),
   ("Auth service type", "auth_service_type"),
   ("Callhome", "enhanced_callhome"),
   ("Callhome censor", "censor_callhome"),
   ("Copy rate", "relationship_bandwidth_limit"),
   ("Local raw capacity", "total_drive_raw_capacity"),
   ("Physical total", "physical_capacity"),
   ("Physical free", "physical_free_capacity"),
   ("Easy tier", "easy_tier_acceleration"),
   ("Compression", "compression_active"),
   ("Compressed virtual", "compression_virtual_capacity"),
   ("Compressed capacity", "compression_compressed_capacity"),
   ("Uncompressed capacity", "compression_uncompressed_capacity"),
   ("Deduplication savings", "deduplication_capacity_saving"),
   ("Cache prefetch", "cache_prefetch")]

/-- The fixed column labels, in order. -/
def fixedLabels : List String := fixedFields.map Prod.fst

/-- The response keys the summary dict literal reads. -/
def fixedKeys : List String := fixedFields.map Prod.snd

/-- Python `d[k]` on a dict: the value, or `KeyError`. -/
def getItem (fields : List (String × Json)) (k : String) : Except Err Json :=
  match fields.lookup k with
  | some v => .ok v
  | none => .error .exception

/-- The summary dict literal (lines 221-248): every fixed key is read from
the response, in source order; the first missing key raises. -/
def buildBase (fields : List (String × Json)) : Except Err Record :=
  fixedFields.mapM (fun p => do
    let v ← getItem fields p.2
    pure (p.1, v))

/-- Python `d.update({k: v})`: replace in place if the key exists,
otherwise append. -/
def dictUpdate (d : Record) (k : String) (v : Json) : Record :=
  if d.any (fun p => p.1 == k) then
    d.map (fun p => if p.1 == k then (k, v) else p)
  else d ++ [(k, v)]

/-- One iteration of the tier loop (lines 250-254): `tier['tier']` must be
a string (it is concatenated with `"_total"` / `"_free"`), and the two
capacity fields are read; the row is updated with both dynamic columns. -/
def addTier (acc : Record) (tier : Json) : Except Err Record :=
  match tier with
  | .obj tf => do
    let tn ← (match tf.lookup "tier" with
              | some (.str tn) => Except.ok tn
              | some _ => Except.error Err.exception
              | none => Except.error Err.exception)
    let cap ← getItem tf "tier_capacity"
    let free ← getItem tf "tier_free_capacity"
    pure (dictUpdate (dictUpdate acc (tn ++ "_total") cap) (tn ++ "_free") free)
  | _ => .error .exception

/-- Python `for x in v`: arrays iterate their elements, dicts their keys
(as strings), strings their characters (as one-character strings). -/
def pyIter : Json → List Json
  | .arr elems => elems
  | .obj fields => fields.map (fun p => Json.str p.1)
  | .str s => s.data.map (fun c => Json.str (String.mk [c]))

/-- The pure tail of `__format_lssystem_to_excel` (lines 220-255), applied
to the decoded `lssystem` response: build the fixed single-row dict, then
fold the tier loop over `lssystem['tiers']`.  The result is the
one-element `lssystem_data` list. -/
def lssystem_transform (j : Json) : Except Err (List Record) :=
  match j with
  | .obj fields => do
    let base ← buildBase fields
    let tiers ← (match fields.lookup "tiers" with
                 | some t => Except.ok (pyIter t)
                 | none => Except.error Err.exception)
    let final ← tiers.foldlM addTier base
    pure [final]
  | _ => .error .exception

/-- `__format_lssystem_to_excel` (lines 217-255): run `lssystem` through
the API, then transform the decoded response. -/
def format_lssystem_to_excel (env : NetEnv) (role : Option String)
    (s : RunState) : Except Err (List Record) × RunState :=
  match run_command env role "lssystem" s with
  | (.error e, s1) => (.error e, s1)
  | (.ok j, s1) => (lssystem_transform j, s1)

/-- Name of a well-formed tier entry (`""` on any other shape; the
theorems about well-formed responses never hit the default). -/
def tierName (t : Json) : String :=
  match t with
  | .obj tf =>
    match tf.lookup "tier" with
    | some (.str tn) => tn
    | _ => ""
  | _ => ""

/-- `tier['tier_capacity']` of a well-formed tier entry. -/
def tierCap (t : Json) : Json :=
  match t with
  | .obj tf => (tf.lookup "tier_capacity").getD (Json.str "")
  | _ => Json.str ""

/-- `tier['tier_free_capacity']` of a well-formed tier entry. -/
def tierFree (t : Json) : Json :=
  match t with
  | .obj tf => (tf.lookup "tier_free_capacity").getD (Json.str "")
  | _ => Json.str ""

/-- The two dynamic columns one tier entry contributes. -/
def tierCols (t : Json) : Record :=
  [(tierName t ++ "_total", tierCap t), (tierName t ++ "_free", tierFree t)]

/-- A tier entry that the loop body can process without raising: an object
with a string `tier` name and both capacity fields present. -/
def isGoodTier (t : Json) : Bool :=
  match t with
  | .obj tf =>
    (match tf.lookup "tier" with
     | some (.str _) => true
     | _ => false) &&
    (tf.lookup "tier_capacity").isSome && (tf.lookup "tier_free_capacity").isSome
  | _ => false

/-- The row value the transform reads for fixed label/key pair `p`. -/
def baseOf (fields : List (String × Json)) : Record :=
  fixedFields.map (fun p => (p.1, ((fields.lookup p.2).getD (Json.str ""))))

/-- A tier entry lacking one of the three keys the loop body reads (a
non-object tier entry has none of them). -/
def tierFieldsMissing (t : Json) : Bool :=
  match t with
  | .obj tf =>
    (tf.lookup "tier").isNone || (tf.lookup "tier_capacity").isNone ||
    (tf.lookup "tier_free_capacity").isNone
  | _ => true

/-- A summary response in which one of the keys the transform reads is
absent: either a fixed key is missing from the object, or some entry of a
`tiers` array lacks `tier`, `tier_capacity` or `tier_free_capacity`. -/
def requiredMissing (j : Json) : Bool :=
  match j with
  | .obj fields =>
    fixedKeys.any (fun k => (fields.lookup k).isNone) ||
    (match fields.lookup "tiers" with
     | some (.arr ts) => ts.any tierFieldsMissing
     | _ => false)
  | _ => false

/-! ### ReportAggregator: tabularisation of plain command results
(`pd.DataFrame.from_dict` + `dataframe_to_rows`, lines 276-285) -/

/-- Column accumulation of `pd.DataFrame` over a list of records: scan the
records in order and append every key not seen before. -/
def addCols (cols : List String) (r : Record) : List String :=
  r.foldl (fun cs p => if cs.contains p.1 then cs else cs ++ [p.1]) cols

/-- The dataframe's columns: first-appearance-ordered union of the
records' keys. -/
def dfColumns (records : List Record) : List String :=
  records.foldl addCols []

/-- The dataframe's data rows: each record's values aligned to the
columns, `none` (NaN) where a record lacks a column. -/
def dfRows (records : List Record) : List (List (Option Json)) :=
  records.map (fun r => (dfColumns records).map (fun c => r.lookup c))

/-- `dataframe_to_rows(df, index=False, header=True)` (line 284): the
header row of column names followed by the data rows. -/
def buildRows (records : List Record) : List (List (Option Json)) :=
  ((dfColumns records).map (fun c => some (Json.str c))) :: dfRows records

/-- Decoding a non-`lssystem` command payload into dataframe records.
Every report command returns a JSON array of objects; other payload
shapes (on which pandas behaviour ranges from scalar columns to a raised
ValueError) are outside the modelled fragment and conservatively raise. -/
def jrecords : Json → Except Err (List Record)
  | .arr elems =>
    elems.mapM (fun e =>
      match e with
      | .obj fields => Except.ok fields
      | _ => Except.error Err.exception)
  | _ => .error .exception

/-! ### ReportAggregator: the per-sheet pipeline
(`__parse_command_to_excel`, `__save_excel`, `generate_excel_report`) -/

/-- A freshly written sheet: title, the appended rows, and the style state
after `__format_sheet` ran on a grid of those dimensions whose cells
started with default (empty) styling. -/
def mkSheet (command : String) (records : List Record) : Sheet :=
  let rows := buildRows records
  { name := command
    rows := rows
    style := format_sheet
      { nRows := rows.length
        nCols := (dfColumns records).length
        colWidth := fun _ => none
        cells := fun _ _ => { font := none, fill := none, align := none } } }

/-- `SV_system.__save_excel` (lines 345-353): `wb.save` replaces the file
on disk; a failing save is `sys.exit(2)` and leaves the file as it was. -/
def save_excel (env : NetEnv) (wb : List Sheet) (s : RunState) :
    Except Err Unit × RunState :=
  let ok := env.saves s.nextSave
  let s' := { s with nextSave := s.nextSave + 1, events := s.events ++ [Ev.save] }
  if ok then (.ok (), { s' with disk := some wb }) else (.error (.exit 2), s')

/-- Lines 270-273 of `__parse_command_to_excel`: gather the command's
records, through the dedicated transform for `lssystem` and through
`run_command` plus dataframe decoding otherwise. -/
def fetch_records (env : NetEnv) (role : Option String) (command : String)
    (s : RunState) : Except Err (List Record) × RunState :=
  if command == "lssystem" then format_lssystem_to_excel env role s
  else
    match run_command env role command s with
    | (.error e, s1) => (.error e, s1)
    | (.ok j, s1) => (jrecords j, s1)

/-- `SV_system.__parse_command_to_excel` (lines 258-293).  On the first
run a fresh workbook's active sheet is retitled to the command; afterwards
the saved file is re-opened (raising if it does not exist) and a new sheet
named after the command is appended.  The command's records are gathered,
tabularised, appended, formatted, and the whole workbook is saved. -/
def parse_command_to_excel (env : NetEnv) (role : Option String)
    (command : String) (s : RunState) : Except Err Unit × RunState :=
  let wbst : Option (List Sheet) × RunState :=
    if s.first_run then (some [], { s with first_run := false })
    else
      match s.disk with
      | some sheets => (some sheets, s)
      | none => (none, s)
  match wbst with
  | (none, s1) => (.error .exception, s1)
  | (some olds, s1) =>
    match fetch_records env role command s1 with
    | (.error e, s2) => (.error e, s2)
    | (.ok records, s2) => save_excel env (olds ++ [mkSheet command records]) s2

/-- `self._report_commands` (lines 45-63). -/
def report_commands : List String :=
  ["lssystem",
   "lsnodecanister",
   "lssystemstats",
   "lsnodestats",
   "lsvdisk",
   "lshost",
   "lshostcluster",
   "lshostvdiskmap",
   "lshostclustervolumemap",
   "lsvdiskaccess",
   "lsvdiskcopy",
   "lsportfc",
   "lsfcconsistgrp",
   "lsiogrp",
   "lsmdiskgrp",
   "lssystemip",
   "lspartnership",
   "lseventlog"]

/-- The loop of `generate_excel_report` (lines 96-97): process the
commands in order; the first fatal error ends the run. -/
def report_loop (env : NetEnv) (role : Option String) :
    List String → RunState → Except Err Unit × RunState
  | [], s => (.ok (), s)
  | c :: cs, s =>
    match parse_command_to_excel env role c s with
    | (.ok _, s1) => report_loop env role cs s1
    | (.error e, s1) => (.error e, s1)

/-- `SV_system.generate_excel_report` (lines 91-98). -/
def generate_excel_report (env : NetEnv) (role : Option String)
    (s : RunState) : Except Err Unit × RunState :=
  report_loop env role report_commands s

/-- The number of commands the report loop processes successfully before
its first fatal error (all of them when every step succeeds): the N of
the partial-progress guarantee.  It mirrors `report_loop` step for step,
counting each successful `parse_command_to_excel`. -/
def report_progress (env : NetEnv) (role : Option String) :
    List String → RunState → Nat
  | [], _ => 0
  | c :: cs, s =>
    match parse_command_to_excel env role c s with
    | (.ok _, s1) => report_progress env role cs s1 + 1
    | (.error _, _) => 0

/-! ### Helper lemmas: command classification -/

lemma hasPref_cons {a : Char} {p l : List Char} (h : hasPref (a :: p) l = true) :
    ∃ t, l = a :: t := by
  cases l with
  | nil => simp [hasPref] at h
  | cons b t =>
    simp [hasPref, Bool.and_eq_true, beq_iff_eq] at h
    exact ⟨t, by rw [h.1]⟩

/-- The first branch of `__check_user_rights` (line 115): every role may
run an `ls`-prefixed command. -/
lemma check_ls (command : String) (role : Option String)
    (h : isReadName command = true) : check_user_rights command role = .ok true := by
  simp [check_user_rights, h]

/-- A command matching the Mutate condition starts with `a`, `c`, `e`, `m`
or `r` — never with the `l`, `s` or `p` of the earlier branches. -/
lemma mutate_head (command : String) (h : isMutateName command = true) :
    ∃ a t, command.data = a :: t ∧ (a = 'a' ∨ a = 'c' ∨ a = 'e' ∨ a = 'm' ∨ a = 'r') := by
  simp only [isMutateName, Bool.or_eq_true, beq_iff_eq] at h
  rcases h with ((((h | h) | h) | h) | h) | h
  · obtain ⟨t, ht⟩ := hasPref_cons h
    exact ⟨'a', t, ht, by simp⟩
  · obtain ⟨t, ht⟩ := hasPref_cons h
    exact ⟨'c', t, ht, by simp⟩
  · exact ⟨'e', "xpandvdisksize".data, by rw [h]; exact ⟨rfl, by simp⟩⟩
  · obtain ⟨t, ht⟩ := hasPref_cons h
    exact ⟨'m', t, ht, by simp⟩
  · exact ⟨'m', "ovevdisk".data, by rw [h]; exact ⟨rfl, by simp⟩⟩
  · obtain ⟨t, ht⟩ := hasPref_cons h
    exact ⟨'r', t, ht, by simp⟩

/-- A command matching the Mutate condition falls through the `ls` and
lifecycle branches into the Admin-gated branch. -/
lemma check_mutate (command : String) (r : String) (h : isMutateName command = true) :
    check_user_rights command (some r) =
      if Admin_roles.contains r then .ok true else .error (.exit 5) := by
  obtain ⟨a, t, hd, ha⟩ := mutate_head command h
  have hread : isReadName command = false := by
    simp only [isReadName, strStartsWith, hd]
    show hasPref ('l' :: 's' :: []) (a :: t) = false
    simp [hasPref]
    intro h'
    rcases ha with rfl | rfl | rfl | rfl | rfl <;> simp_all
  have hlife : isLifecycleName command = false := by
    simp only [isLifecycleName, strStartsWith, hd, Bool.or_eq_false_iff]
    refine ⟨⟨⟨?_, ?_⟩, ?_⟩, ?_⟩ <;>
      · show hasPref _ (a :: t) = false
        simp [hasPref]
        intro h'
        rcases ha with rfl | rfl | rfl | rfl | rfl <;> simp_all
  simp [check_user_rights, hread, hlife, h]

lemma contains_admin (r : String) :
    Admin_roles.contains r = true ↔ (r = "Administrator" ∨ r = "SecurityAdmin") := by
  simp [Admin_roles]

/-! ### Helper lemmas: state threading -/

lemma check_connection_snd (env : NetEnv) (s : RunState) :
    (check_connection env s).2 =
      { s with nextProbe := s.nextProbe + 1, events := s.events ++ [Ev.probe] } := by
  simp only [check_connection]
  split <;> rfl

lemma run_command_disk (env : NetEnv) (role : Option String) (command : String)
    (s : RunState) : (run_command env role command s).2.disk = s.disk := by
  simp only [run_command]
  rcases hc : check_connection env s with ⟨rc, s1⟩
  have hs1 : s1 = (check_connection env s).2 := by rw [hc]
  have hd : s1.disk = s.disk := by rw [hs1, check_connection_snd]
  rcases rc with e | u
  · simpa using hd
  · simp only []
    rcases hr : check_user_rights command role with e | b
    · simpa using hd
    · simp only [post]
      split <;> simpa using hd

lemma run_command_first_run (env : NetEnv) (role : Option String) (command : String)
    (s : RunState) : (run_command env role command s).2.first_run = s.first_run := by
  simp only [run_command]
  rcases hc : check_connection env s with ⟨rc, s1⟩
  have hs1 : s1 = (check_connection env s).2 := by rw [hc]
  have hd : s1.first_run = s.first_run := by rw [hs1, check_connection_snd]
  rcases rc with e | u
  · simpa using hd
  · simp only []
    rcases hr : check_user_rights command role with e | b
    · simpa using hd
    · simp only [post]
      split <;> simpa using hd

lemma format_lssystem_disk (env : NetEnv) (role : Option String) (s : RunState) :
    (format_lssystem_to_excel env role s).2.disk = s.disk := by
  simp only [format_lssystem_to_excel]
  rcases hc : run_command env role "lssystem" s with ⟨rc, s1⟩
  have hs1 : s1 = (run_command env role "lssystem" s).2 := by rw [hc]
  have hd : s1.disk = s.disk := by rw [hs1, run_command_disk]
  rcases rc with e | j <;> simpa using hd

lemma format_lssystem_first_run (env : NetEnv) (role : Option String) (s : RunState) :
    (format_lssystem_to_excel env role s).2.first_run = s.first_run := by
  simp only [format_lssystem_to_excel]
  rcases hc : run_command env role "lssystem" s with ⟨rc, s1⟩
  have hs1 : s1 = (run_command env role "lssystem" s).2 := by rw [hc]
  have hd : s1.first_run = s.first_run := by rw [hs1, run_command_first_run]
  rcases rc with e | j <;> simpa using hd

lemma fetch_records_disk (env : NetEnv) (role : Option String) (command : String)
    (s : RunState) : (fetch_records env role command s).2.disk = s.disk := by
  simp only [fetch_records]
  split
  · exact format_lssystem_disk env role s
  · rcases hc : run_command env role command s with ⟨rc, s1⟩
    have hs1 : s1 = (run_command env role command s).2 := by rw [hc]
    have hd : s1.disk = s.disk := by rw [hs1, run_command_disk]
    rcases rc with e | j <;> simpa using hd

lemma fetch_records_first_run (env : NetEnv) (role : Option String) (command : String)
    (s : RunState) : (fetch_records env role command s).2.first_run = s.first_run := by
  simp only [fetch_records]
  split
  · exact format_lssystem_first_run env role s
  · rcases hc : run_command env role command s with ⟨rc, s1⟩
    have hs1 : s1 = (run_command env role command s).2 := by rw [hc]
    have hd : s1.first_run = s.first_run := by rw [hs1, run_command_first_run]
    rcases rc with e | j <;> simpa using hd

/-- One pipeline step either succeeds — leaving `first_run` cleared and
exactly one new sheet, named after the command, appended to the file on
disk — or fails leaving the file untouched. -/
lemma parse_step (env : NetEnv) (role : Option String) (c : String) (s : RunState)
    (hinv : s.first_run = true → s.disk = none) :
    (∃ s', parse_command_to_excel env role c s = (.ok (), s') ∧
       s'.first_run = false ∧ diskNames s' = diskNames s ++ [c]) ∨
    (∃ e s', parse_command_to_excel env role c s = (.error e, s') ∧
       s'.disk = s.disk) := by
  by_cases hfr : s.first_run
  · have hdisk := hinv hfr
    rcases hf : fetch_records env role c { s with first_run := false } with ⟨res, s2⟩
    have h2d : s2.disk = s.disk := by
      have h := fetch_records_disk env role c { s with first_run := false }
      rw [hf] at h
      simpa using h
    have h2f : s2.first_run = false := by
      have h := fetch_records_first_run env role c { s with first_run := false }
      rw [hf] at h
      simpa using h
    rcases res with e | records
    · have hp : parse_command_to_excel env role c s = (.error e, s2) := by
        simp [parse_command_to_excel, hfr, hf]
      exact Or.inr ⟨e, s2, hp, h2d⟩
    · by_cases hs : env.saves s2.nextSave
      · have hp : parse_command_to_excel env role c s = (.ok (), { s2 with nextSave := s2.nextSave + 1, events := s2.events ++ [Ev.save], disk := some ([] ++ [mkSheet c records]) }) := by
          simp [parse_command_to_excel, hfr, hf, save_excel, hs]
        refine Or.inl ⟨_, hp, by simpa using h2f, ?_⟩
        simp [diskNames, hdisk, mkSheet]
      · have hp : parse_command_to_excel env role c s = (.error (.exit 2), { s2 with nextSave := s2.nextSave + 1, events := s2.events ++ [Ev.save] }) := by
          simp [parse_command_to_excel, hfr, hf, save_excel, hs]
        exact Or.inr ⟨.exit 2, _, hp, by simpa using h2d⟩
  · have hfr' : s.first_run = false := by simpa using hfr
    rcases hd : s.disk with _ | sheets
    · have hp : parse_command_to_excel env role c s = (.error .exception, s) := by
        simp [parse_command_to_excel, hfr', hd]
      exact Or.inr ⟨.exception, s, hp, hd⟩
    · rcases hf : fetch_records env role c s with ⟨res, s2⟩
      have h2d : s2.disk = s.disk := by
        have h := fetch_records_disk env role c s
        rw [hf] at h
        simpa using h
      have h2f : s2.first_run = false := by
        have h := fetch_records_first_run env role c s
        rw [hf] at h
        simpa [hfr'] using h
      rcases res with e | records
      · have hp : parse_command_to_excel env role c s = (.error e, s2) := by
          simp [parse_command_to_excel, hfr', hd, hf]
        exact Or.inr ⟨e, s2, hp, h2d.trans hd⟩
      · by_cases hs : env.saves s2.nextSave
        · have hp : parse_command_to_excel env role c s = (.ok (), { s2 with nextSave := s2.nextSave + 1, events := s2.events ++ [Ev.save], disk := some (sheets ++ [mkSheet c records]) }) := by
            simp [parse_command_to_excel, hfr', hd, hf, save_excel, hs]
          refine Or.inl ⟨_, hp, by simpa using h2f, ?_⟩
          simp [diskNames, hd, mkSheet]
        · have hp : parse_command_to_excel env role c s = (.error (.exit 2), { s2 with nextSave := s2.nextSave + 1, events := s2.events ++ [Ev.save] }) := by
            simp [parse_command_to_excel, hfr', hd, hf, save_excel, hs]
          exact Or.inr ⟨.exit 2, _, hp, by simpa using h2d.trans hd⟩

/-- Invariant of the report loop: the loop appends exactly one sheet per
successfully processed command, so the file on disk ends as the prefix of
the remaining commands of length `report_progress` — the count of
successes before the first fatal error; the run ends `ok` exactly when
that count is the whole list. -/
lemma report_loop_names (env : NetEnv) (role : Option String) (cmds : List String)
    (s : RunState) (hinv : s.first_run = true → s.disk = none) :
    report_progress env role cmds s ≤ cmds.length ∧
    diskNames (report_loop env role cmds s).2 =
      diskNames s ++ cmds.take (report_progress env role cmds s) ∧
    ((report_loop env role cmds s).1 = .ok () ↔
      report_progress env role cmds s = cmds.length) := by
  induction cmds generalizing s with
  | nil => simp [report_loop, report_progress]
  | cons c cs ih =>
    rcases parse_step env role c s hinv with ⟨s', hp, hfr', hnames⟩ | ⟨e, s', hp, hdisk⟩
    · obtain ⟨hN, hnames', hok⟩ := ih s' (by simp [hfr'])
      simp only [report_loop, report_progress, hp, List.length_cons]
      refine ⟨Nat.succ_le_succ hN, ?_, ?_⟩
      · rw [List.take_succ_cons, hnames', hnames]
        simp
      · rw [hok]
        omega
    · simp only [report_loop, report_progress, hp, List.length_cons]
      refine ⟨Nat.zero_le _, ?_, ?_⟩
      · simp only [List.take_zero, List.append_nil, diskNames]
        rw [hdisk]
      · simp

/-- C1: for every run of the pipeline, with N the number of commands of
the fixed command list processed successfully (`report_progress` — all
of them on a clean run, the successes before the first fatal error on
an interrupted one), the artifact on disk contains exactly the first N
sheets, each named after the command it came from, in command-execution
order, with no two sheets sharing a name; the run returns ok exactly
when N is the whole list. -/
theorem C1_report_prefix_invariant (env : NetEnv) (role : Option String) (s : RunState)
    (hfr : s.first_run = true) (hdisk : s.disk = none) :
    report_progress env role report_commands s ≤ report_commands.length ∧
    diskNames (generate_excel_report env role s).2 =
      report_commands.take (report_progress env role report_commands s) ∧
    ((generate_excel_report env role s).1 = .ok () ↔
      report_progress env role report_commands s = report_commands.length) ∧
    (report_commands.take (report_progress env role report_commands s)).Nodup := by
  obtain ⟨hN, hnames, hok⟩ := report_loop_names env role report_commands s (fun _ => hdisk)
  refine ⟨hN, ?_, hok, ?_⟩
  · simpa [generate_excel_report, diskNames, hdisk] using hnames
  · exact List.Nodup.sublist (List.take_sublist _ report_commands) (by decide)

/-- Witness for C1 at a concrete environment and the initial state. -/
theorem C1_report_prefix_invariant_witness :
    report_progress ⟨fun _ => 0, fun _ => (500, Json.arr []), fun _ => true⟩ (some "Administrator") report_commands initState ≤ report_commands.length ∧
    diskNames (generate_excel_report ⟨fun _ => 0, fun _ => (500, Json.arr []), fun _ => true⟩ (some "Administrator") initState).2 =
      report_commands.take (report_progress ⟨fun _ => 0, fun _ => (500, Json.arr []), fun _ => true⟩ (some "Administrator") report_commands initState) ∧
    ((generate_excel_report ⟨fun _ => 0, fun _ => (500, Json.arr []), fun _ => true⟩ (some "Administrator") initState).1 = .ok () ↔
      report_progress ⟨fun _ => 0, fun _ => (500, Json.arr []), fun _ => true⟩ (some "Administrator") report_commands initState = report_commands.length) ∧
    (report_commands.take (report_progress ⟨fun _ => 0, fun _ => (500, Json.arr []), fun _ => true⟩ (some "Administrator") report_commands initState)).Nodup :=
  C1_report_prefix_invariant ⟨fun _ => 0, fun _ => (500, Json.arr []), fun _ => true⟩ (some "Administrator") initState rfl rfl

/-- C2: for every command name classified as Mutate (prefix `add`, `ch`,
`mk`, `rm`, or exactly `expandvdisksize` or `movevdisk`), the
authorization check returns true iff the session role is Administrator or
SecurityAdmin; for every other role the check fails with exit code 5 and,
within `run_command`, no API POST is issued for that command (the event
trace holds only the probe and the rights-check entry). -/
theorem C2_mutate_requires_admin (cmd r : String) (env : NetEnv) (s : RunState)
    (hmut : isMutateName cmd = true) :
    (check_user_rights cmd (some r) = .ok true ↔
       (r = "Administrator" ∨ r = "SecurityAdmin")) ∧
    (¬(r = "Administrator" ∨ r = "SecurityAdmin") →
       env.probes s.nextProbe = 0 → s.events = [] →
       (run_command env (some r) cmd s).1 = .error (.exit 5) ∧
       (run_command env (some r) cmd s).2.events = [Ev.probe, Ev.rightsCheck cmd]) := by
  have hcm := check_mutate cmd r hmut
  constructor
  · rw [hcm]
    constructor
    · intro h
      by_cases hc : Admin_roles.contains r
      · exact (contains_admin r).1 hc
      · rw [if_neg hc] at h
        exact absurd h (by simp)
    · intro h
      rw [if_pos ((contains_admin r).2 h)]
  · intro hrole hprobe hev
    have hcf : Admin_roles.contains r = false := by
      by_cases hc : Admin_roles.contains r
      · exact absurd ((contains_admin r).1 hc) hrole
      · simpa using hc
    have hchk : check_user_rights cmd (some r) = .error (.exit 5) := by
      rw [hcm, hcf]
      simp
    constructor <;> simp [run_command, check_connection, hprobe, hchk, hev]

/-- Witness for C2: `rmvdisk` under role `Monitor`. -/
theorem C2_mutate_requires_admin_witness :
    (check_user_rights "rmvdisk" (some "Monitor") = .ok true ↔
       ("Monitor" = "Administrator" ∨ "Monitor" = "SecurityAdmin")) ∧
    (¬("Monitor" = "Administrator" ∨ "Monitor" = "SecurityAdmin") →
       NetEnv.probes ⟨fun _ => 0, fun _ => (200, Json.arr []), fun _ => true⟩ initState.nextProbe = 0 →
       initState.events = [] →
       (run_command ⟨fun _ => 0, fun _ => (200, Json.arr []), fun _ => true⟩ (some "Monitor") "rmvdisk" initState).1 = .error (.exit 5) ∧
       (run_command ⟨fun _ => 0, fun _ => (200, Json.arr []), fun _ => true⟩ (some "Monitor") "rmvdisk" initState).2.events = [Ev.probe, Ev.rightsCheck "rmvdisk"]) :=
  C2_mutate_requires_admin "rmvdisk" "Monitor" ⟨fun _ => 0, fun _ => (200, Json.arr []), fun _ => true⟩ initState rfl

/-- `run_command` emits the probe, then the rights-check entry, then at
most one API POST — one of exactly three trace shapes. -/
lemma run_command_events_cases (env : NetEnv) (role : Option String) (cmd : String)
    (s : RunState) :
    (run_command env role cmd s).2.events = s.events ++ [Ev.probe] ∨
    (run_command env role cmd s).2.events = s.events ++ [Ev.probe, Ev.rightsCheck cmd] ∨
    (run_command env role cmd s).2.events =
      s.events ++ [Ev.probe, Ev.rightsCheck cmd, Ev.apiPost cmd] := by
  simp only [run_command]
  rcases hc : check_connection env s with ⟨rc, s1⟩
  have h1 : s1.events = s.events ++ [Ev.probe] := by
    have hs1 : s1 = (check_connection env s).2 := by rw [hc]
    rw [hs1, check_connection_snd]
  rcases rc with e | u
  · exact Or.inl (by simpa using h1)
  · rcases hr : check_user_rights cmd role with e | b
    · exact Or.inr (Or.inl (by simp [h1]))
    · refine Or.inr (Or.inr ?_)
      simp only [post]
      split <;> simp [h1]

lemma run_command_probe_fail (env : NetEnv) (role : Option String) (cmd : String)
    (s : RunState) (hp : env.probes s.nextProbe ≠ 0) :
    (run_command env role cmd s).1 = .error Err.exception ∧
    (run_command env role cmd s).2.events = s.events ++ [Ev.probe] := by
  constructor <;> simp [run_command, check_connection, hp]

lemma get_token_probe_fail (env : NetEnv) (s : RunState)
    (hp : env.probes s.nextProbe ≠ 0) :
    (get_token env s).1 = .error Err.exception ∧
    (get_token env s).2.events = s.events ++ [Ev.probe] := by
  constructor <;> simp [get_token, check_connection, hp]

/-- `get_token` emits the probe first, then at most the `auth` POST. -/
lemma get_token_events_cases (env : NetEnv) (s : RunState) :
    (get_token env s).2.events = s.events ++ [Ev.probe] ∨
    (get_token env s).2.events = s.events ++ [Ev.probe, Ev.apiPost "auth"] := by
  simp only [get_token]
  rcases hc : check_connection env s with ⟨rc, s1⟩
  have h1 : s1.events = s.events ++ [Ev.probe] := by
    have hs1 : s1 = (check_connection env s).2 := by rw [hc]
    rw [hs1, check_connection_snd]
  rcases rc with e | u
  · exact Or.inl (by simpa using h1)
  · refine Or.inr ?_
    simp only [post]
    split
    · split <;> (try simp [h1]) <;> (split <;> simp [h1])
    · simp [h1]

/-- C7: for every command name beginning with `ls` and every possible role
value (including the unset role of the bootstrap lookup), the
authorization check returns true, and in `run_command` no API POST
precedes the rights check: the trace segment before the rights-check
entry contains no POST event. -/
theorem C7_ls_read_for_all_roles (cmd : String) (role : Option String) (env : NetEnv)
    (s : RunState) (hls : strStartsWith cmd "ls" = true) (hev : s.events = []) :
    check_user_rights cmd role = .ok true ∧
    ((run_command env role cmd s).2.events.takeWhile (fun e => !e.isRightsCheck)).all
      (fun e => !e.isApiPost) = true := by
  have hchk := check_ls cmd role (by simpa [isReadName] using hls)
  refine ⟨hchk, ?_⟩
  rcases run_command_events_cases env role cmd s with h | h | h <;>
    simp [h, hev, List.takeWhile, Ev.isRightsCheck, Ev.isApiPost]

/-- Witness for C7: `lsvdisk` with the role not yet set. -/
theorem C7_ls_read_for_all_roles_witness :
    check_user_rights "lsvdisk" none = .ok true ∧
    ((run_command ⟨fun _ => 0, fun _ => (200, Json.arr []), fun _ => true⟩ none "lsvdisk" initState).2.events.takeWhile (fun e => !e.isRightsCheck)).all
      (fun e => !e.isApiPost) = true :=
  C7_ls_read_for_all_roles "lsvdisk" none ⟨fun _ => 0, fun _ => (200, Json.arr []), fun _ => true⟩ initState rfl rfl

/-- C4 (code bug): the connectivity probe (with its fixed 2-second
socket timeout) is the first observable step both of token acquisition
and of every command execution, it is never retried, and on failure no
auth or command POST is attempted; but the claimed exit code 6 never
happens: a failed `connect_ex` leaves the socket unconnected, the
unconditional `socket.shutdown` at source line 191 raises `OSError`
before the `sys.exit(6)` at line 196 can run, and the process dies with
an unhandled exception.  Evaluated at a concrete failing input: the
first probe's `connect_ex` returns 1. -/
theorem C4_probe_fail_unhandled :
    settimeout_seconds = 2 ∧
    (get_token ⟨fun _ => 1, fun _ => (200, Json.arr []), fun _ => true⟩ initState).1 = .error Err.exception ∧
    (get_token ⟨fun _ => 1, fun _ => (200, Json.arr []), fun _ => true⟩ initState).2.events = [Ev.probe] ∧
    (run_command ⟨fun _ => 1, fun _ => (200, Json.arr []), fun _ => true⟩ (some "Administrator") "lsvdisk" initState).1 = .error Err.exception ∧
    (run_command ⟨fun _ => 1, fun _ => (200, Json.arr []), fun _ => true⟩ (some "Administrator") "lsvdisk" initState).2.events = [Ev.probe] ∧
    Err.exception ≠ Err.exit 6 :=
  ⟨rfl, rfl, rfl, rfl, rfl, by simp⟩

lemma lscurrentuser_check : check_user_rights "lscurrentuser" none = .ok true := rfl

/-- Counterexample to C3: with the probe succeeding, the auth POST
returning HTTP 200 with a token, and the `lscurrentuser` POST returning
HTTP 200 with an empty array (a response from which no role can be
produced), authentication ends in an unhandled exception
(`current_user[1]` raises), not in the claimed exit code 4. -/
theorem C3_counterexample :
    (authenticate ⟨fun _ => 0, fun n => if n == 0 then (200, Json.obj [("token", Json.str "tok")]) else (200, Json.arr []), fun _ => true⟩ initState).1 = .error Err.exception ∧
    Err.exception ≠ Err.exit 4 :=
  ⟨rfl, by simp⟩

/-- C3 (amended): after the token has been acquired, the role is
discovered by issuing `lscurrentuser`; when the decoded who-am-I body
does not carry a string role at `[1]["role"]`, authentication ends in an
unhandled exception (not in the authentication-failure exit code 4);
when it does, `authenticate` returns ok with exactly the token and role
read from the two responses — values that, being returned rather than
stored in the threaded `RunState`, cannot change for the rest of the
run. -/
theorem C3_role_discovery_amended (env : NetEnv) (s : RunState) (b t : Json)
    (hp0 : env.probes s.nextProbe = 0)
    (hp1 : env.probes (s.nextProbe + 1) = 0)
    (hauth : env.responses s.nextPost = (200, Json.obj [("token", t)]))
    (hwho : env.responses (s.nextPost + 1) = (200, b)) :
    (extract_role b = .error Err.exception →
       (authenticate env s).1 = .error Err.exception) ∧
    (∀ r, extract_role b = .ok r → (authenticate env s).1 = .ok (t, r)) := by
  constructor
  · intro hx
    simp [authenticate, get_token, get_user_role, run_command, check_connection, post,
          hp0, hp1, hauth, hwho, lscurrentuser_check, hx]
  · intro r hx
    simp [authenticate, get_token, get_user_role, run_command, check_connection, post,
          hp0, hp1, hauth, hwho, lscurrentuser_check, hx]

/-- Witness for the amended C3 at a concrete well-formed pair of
responses. -/
theorem C3_role_discovery_amended_witness :
    (extract_role (Json.arr [Json.str "h", Json.obj [("role", Json.str "Monitor")]]) = .error Err.exception →
       (authenticate ⟨fun _ => 0, fun n => if n == 0 then (200, Json.obj [("token", Json.str "tok")]) else (200, Json.arr [Json.str "h", Json.obj [("role", Json.str "Monitor")]]), fun _ => true⟩ initState).1 = .error Err.exception) ∧
    (∀ r, extract_role (Json.arr [Json.str "h", Json.obj [("role", Json.str "Monitor")]]) = .ok r →
       (authenticate ⟨fun _ => 0, fun n => if n == 0 then (200, Json.obj [("token", Json.str "tok")]) else (200, Json.arr [Json.str "h", Json.obj [("role", Json.str "Monitor")]]), fun _ => true⟩ initState).1 = .ok (Json.str "tok", r)) :=
  C3_role_discovery_amended ⟨fun _ => 0, fun n => if n == 0 then (200, Json.obj [("token", Json.str "tok")]) else (200, Json.arr [Json.str "h", Json.obj [("role", Json.str "Monitor")]]), fun _ => true⟩ initState (Json.arr [Json.str "h", Json.obj [("role", Json.str "Monitor")]]) (Json.str "tok") rfl rfl rfl rfl

lemma format_sheet_nRows (t : SheetF) : (format_sheet t).nRows = t.nRows := rfl

lemma format_sheet_nCols (t : SheetF) : (format_sheet t).nCols = t.nCols := rfl

/-- After `__format_sheet`, a cell's font is the header font on row 1
(within the columns of the sheet) and is untouched elsewhere. -/
lemma format_cells_font (t : SheetF) (r c : Nat) :
    ((format_sheet t).cells r c).font =
      if r = 1 ∧ 1 ≤ c ∧ c ≤ t.nCols then some HEADER_FONT
      else ((t.cells r c).font) := by
  simp only [format_sheet, bandOdd, bandEven, centerAll, setHeader, setWidths]
  split_ifs <;> rfl

/-- After `__format_sheet`, a cell's fill is the odd-band colour, the
even-band colour, the header colour, or untouched — keyed exactly by the
row ranges of the three fill-writing passes. -/
lemma format_cells_fill (t : SheetF) (r c : Nat) :
    ((format_sheet t).cells r c).fill =
      if 3 ≤ r ∧ r ≤ t.nRows ∧ r % 2 = 1 ∧ 1 ≤ c ∧ c ≤ t.nCols then some oddFill
      else if 2 ≤ r ∧ r ≤ t.nRows ∧ r % 2 = 0 ∧ 1 ≤ c ∧ c ≤ t.nCols then some evenFill
      else if r = 1 ∧ 1 ≤ c ∧ c ≤ t.nCols then some headerFill
      else ((t.cells r c).fill) := by
  simp only [format_sheet, bandOdd, bandEven, centerAll, setHeader, setWidths]
  split_ifs <;> first | rfl | (exfalso; omega)

/-- After `__format_sheet`, every in-grid cell is center-aligned. -/
lemma format_cells_align (t : SheetF) (r c : Nat) :
    ((format_sheet t).cells r c).align =
      if 1 ≤ r ∧ r ≤ t.nRows ∧ 1 ≤ c ∧ c ≤ t.nCols then some centerAlign
      else ((t.cells r c).align) := by
  simp only [format_sheet, bandOdd, bandEven, centerAll, setHeader, setWidths]
  split_ifs <;> rfl

lemma SheetF.ext4 (a b : SheetF) (h1 : a.nRows = b.nRows) (h2 : a.nCols = b.nCols)
    (h3 : ∀ c, a.colWidth c = b.colWidth c) (h4 : ∀ r c, a.cells r c = b.cells r c) :
    a = b := by
  cases a
  cases b
  simp only [SheetF.mk.injEq]
  exact ⟨h1, h2, funext h3, funext fun r => funext fun c => h4 r c⟩

lemma CellStyle.ext3 (a b : CellStyle) (h1 : a.font = b.font) (h2 : a.fill = b.fill)
    (h3 : a.align = b.align) : a = b := by
  cases a
  cases b
  simp_all

/-- C8: the sheet formatter is idempotent — applying `__format_sheet`
twice to the same sheet content yields identical column widths, header
font and fill, cell alignment and row banding as applying it once. -/
theorem C8_format_sheet_idempotent (s : SheetF) :
    format_sheet (format_sheet s) = format_sheet s := by
  refine SheetF.ext4 _ _ rfl rfl (fun c => rfl) (fun r c => ?_)
  refine CellStyle.ext3 _ _ ?_ ?_ ?_
  · rw [format_cells_font, format_cells_font]
    simp only [format_sheet_nCols]
    by_cases hA : r = 1 ∧ 1 ≤ c ∧ c ≤ s.nCols <;> simp [hA]
  · rw [format_cells_fill, format_cells_fill]
    simp only [format_sheet_nRows, format_sheet_nCols]
    by_cases hD : 3 ≤ r ∧ r ≤ s.nRows ∧ r % 2 = 1 ∧ 1 ≤ c ∧ c ≤ s.nCols <;>
      by_cases hC : 2 ≤ r ∧ r ≤ s.nRows ∧ r % 2 = 0 ∧ 1 ≤ c ∧ c ≤ s.nCols <;>
      by_cases hA : r = 1 ∧ 1 ≤ c ∧ c ≤ s.nCols <;>
      simp [hD, hC, hA]
  · rw [format_cells_align, format_cells_align]
    simp only [format_sheet_nRows, format_sheet_nCols]
    by_cases hB : 1 ≤ r ∧ r ≤ s.nRows ∧ 1 ≤ c ∧ c ≤ s.nCols <;> simp [hB]
lemma ne_of_drop (t suf s : String)
    (h : ¬ s.data.drop (s.data.length - suf.data.length) = suf.data) :
    ¬ (t ++ suf = s) := by
  intro he
  apply h
  have hd : t.data ++ suf.data = s.data := by
    rw [← String.data_append, he]
  have hlen : s.data.length - suf.data.length = t.data.length := by
    rw [← hd, List.length_append]
    omega
  rw [hlen, ← hd, List.drop_left]

lemma str_append_right_inj (a b suf : String) (h : a ++ suf = b ++ suf) : a = b := by
  have hd : a.data ++ suf.data = b.data ++ suf.data := by
    rw [← String.data_append, ← String.data_append, h]
  exact String.ext (List.append_cancel_right hd)

lemma ne_of_last (p q : String) (hp : p.data ≠ []) (hq : q.data ≠ [])
    (h : p.data.getLast? ≠ q.data.getLast?) (a b : String) : ¬ (a ++ p = b ++ q) := by
  intro he
  apply h
  have hd : a.data ++ p.data = b.data ++ q.data := by
    rw [← String.data_append, ← String.data_append, he]
  have h1 : (a.data ++ p.data).getLast? = p.data.getLast? := by
    rw [List.getLast?_append]
    cases hp' : p.data.getLast? with
    | none => exact absurd (List.getLast?_eq_none_iff.mp hp') hp
    | some x => rfl
  have h2 : (b.data ++ q.data).getLast? = q.data.getLast? := by
    rw [List.getLast?_append]
    cases hq' : q.data.getLast? with
    | none => exact absurd (List.getLast?_eq_none_iff.mp hq') hq
    | some x => rfl
  rw [← h1, hd, h2]

lemma keys_dictUpdate_fresh (d : Record) (k : String) (v : Json)
    (h : k ∉ d.map Prod.fst) : dictUpdate d k v = d ++ [(k, v)] := by
  have hna : ¬ (d.any (fun p => p.1 == k) = true) := by
    rw [List.any_eq_true]
    rintro ⟨p, hp, he⟩
    exact h (beq_iff_eq.mp he ▸ List.mem_map_of_mem Prod.fst hp)
  simp [dictUpdate, hna]

lemma addTier_good (acc : Record) (t : Json) (hg : isGoodTier t = true) :
    addTier acc t = .ok (dictUpdate (dictUpdate acc (tierName t ++ "_total") (tierCap t))
      (tierName t ++ "_free") (tierFree t)) := by
  cases t with
  | str s => exact (Bool.false_ne_true hg).elim
  | arr es => exact (Bool.false_ne_true hg).elim
  | obj tf =>
    simp only [isGoodTier, Bool.and_eq_true] at hg
    obtain ⟨⟨hm, hcap⟩, hfree⟩ := hg
    rcases ht : tf.lookup "tier" with _ | v
    · rw [ht] at hm
      simp at hm
    · rcases v with tn | f2 | e2
      · obtain ⟨cap, hcap'⟩ := Option.isSome_iff_exists.mp hcap
        obtain ⟨free, hfree'⟩ := Option.isSome_iff_exists.mp hfree
        simp only [addTier, getItem, ht, hcap', hfree', tierName, tierCap, tierFree]
        rfl
      · rw [ht] at hm
        simp at hm
      · rw [ht] at hm
        simp at hm

lemma free_ne_total (a b : String) : ¬ (a ++ "_free" = b ++ "_total") :=
  ne_of_last "_free" "_total" (by decide) (by decide) (by decide) a b

lemma total_ne_free (a b : String) : ¬ (a ++ "_total" = b ++ "_free") :=
  ne_of_last "_total" "_free" (by decide) (by decide) (by decide) a b

lemma tierCols_keys (t : Json) :
    (tierCols t).map Prod.fst = [tierName t ++ "_total", tierName t ++ "_free"] := rfl

lemma foldl_addTier_ok (ts : List Json) (base : Record)
    (hgood : ∀ t ∈ ts, isGoodTier t = true)
    (hfresh : ∀ t ∈ ts, (tierName t ++ "_total") ∉ base.map Prod.fst ∧
                        (tierName t ++ "_free") ∉ base.map Prod.fst)
    (hnodup : (ts.map tierName).Nodup) :
    ts.foldlM addTier base = .ok (base ++ ts.flatMap tierCols) := by
  induction ts generalizing base with
  | nil =>
    simp only [List.foldlM_nil, List.flatMap_nil, List.append_nil]
    rfl
  | cons t ts ih =>
    have hg := hgood t (by simp)
    obtain ⟨hft, hff⟩ := hfresh t (by simp)
    have hstep : addTier base t = .ok (base ++ tierCols t) := by
      rw [addTier_good base t hg, keys_dictUpdate_fresh _ _ _ hft,
          keys_dictUpdate_fresh]
      · simp [tierCols]
      · simp only [List.map_append, List.mem_append, not_or]
        refine ⟨hff, ?_⟩
        simp only [List.map_cons, List.map_nil, List.mem_cons, List.not_mem_nil, or_false]
        exact free_ne_total _ _
    obtain ⟨hne, hnd⟩ := List.nodup_cons.mp hnodup
    rw [List.foldlM_cons, hstep]
    show ts.foldlM addTier (base ++ tierCols t) = _
    rw [ih (base ++ tierCols t) (fun u hu => hgood u (by simp [hu])) ?_ hnd]
    · simp [tierCols]
    · intro u hu
      have hun : tierName u ≠ tierName t := by
        intro he
        exact hne (he ▸ List.mem_map_of_mem tierName hu)
      obtain ⟨hut, huf⟩ := hfresh u (by simp [hu])
      constructor
      · simp only [List.map_append, List.mem_append, not_or, tierCols_keys]
        refine ⟨hut, ?_⟩
        simp only [List.mem_cons, List.not_mem_nil, or_false]
        rintro (he | he)
        · exact hun (str_append_right_inj _ _ _ he)
        · exact total_ne_free _ _ he
      · simp only [List.map_append, List.mem_append, not_or, tierCols_keys]
        refine ⟨huf, ?_⟩
        simp only [List.mem_cons, List.not_mem_nil, or_false]
        rintro (he | he)
        · exact free_ne_total _ _ he
        · exact hun (str_append_right_inj _ _ _ he)

lemma mapM_getItem_ok (l : List (String × String)) (fields : List (String × Json))
    (h : ∀ p ∈ l, (fields.lookup p.2).isSome = true) :
    (l.mapM (fun p => do
      let v ← getItem fields p.2
      pure (p.1, v))) =
      Except.ok (l.map (fun p => (p.1, ((fields.lookup p.2).getD (Json.str ""))))) := by
  induction l with
  | nil => rfl
  | cons p l ih =>
    obtain ⟨v, hv⟩ := Option.isSome_iff_exists.mp (h p (by simp))
    have ih' := ih (fun q hq => h q (by simp [hq]))
    have hgi : getItem fields p.2 = Except.ok v := by simp [getItem, hv]
    rw [List.mapM_cons, hgi, ih']
    simp only [List.map_cons, hv, Option.getD_some]
    rfl

lemma buildBase_ok (fields : List (String × Json))
    (hfixed : ∀ p ∈ fixedFields, (fields.lookup p.2).isSome = true) :
    buildBase fields = .ok (baseOf fields) :=
  mapM_getItem_ok fixedFields fields hfixed

lemma baseOf_keys (fields : List (String × Json)) :
    (baseOf fields).map Prod.fst = fixedLabels := by
  simp [baseOf, fixedLabels, List.map_map]

lemma lookup_append_right (l1 l2 : Record) (k : String) (h : k ∉ l1.map Prod.fst) :
    (l1 ++ l2).lookup k = l2.lookup k := by
  induction l1 with
  | nil => rfl
  | cons p l ih =>
    simp only [List.map_cons, List.mem_cons, not_or] at h
    have hk : (k == p.1) = false := beq_eq_false_iff_ne.mpr h.1
    simp [List.lookup, hk, ih h.2]

lemma total_not_fixed (t : String) : (t ++ "_total") ∉ fixedLabels := by
  intro h
  simp only [fixedLabels, fixedFields, List.map_cons, List.map_nil, List.mem_cons,
    List.not_mem_nil, or_false] at h
  rcases h with h|h|h|h|h|h|h|h|h|h|h|h|h|h|h|h|h|h|h|h|h|h|h|h <;>
    exact ne_of_drop _ _ _ (by decide) h

lemma free_not_fixed (t : String) : (t ++ "_free") ∉ fixedLabels := by
  intro h
  simp only [fixedLabels, fixedFields, List.map_cons, List.map_nil, List.mem_cons,
    List.not_mem_nil, or_false] at h
  rcases h with h|h|h|h|h|h|h|h|h|h|h|h|h|h|h|h|h|h|h|h|h|h|h|h <;>
    exact ne_of_drop _ _ _ (by decide) h

lemma lssystem_transform_ok (fields : List (String × Json)) (ts : List Json)
    (htiers : fields.lookup "tiers" = some (Json.arr ts))
    (hfixed : ∀ p ∈ fixedFields, (fields.lookup p.2).isSome = true)
    (hgood : ∀ t ∈ ts, isGoodTier t = true)
    (hnodup : (ts.map tierName).Nodup) :
    lssystem_transform (Json.obj fields) = .ok [baseOf fields ++ ts.flatMap tierCols] := by
  have hfresh : ∀ t ∈ ts, (tierName t ++ "_total") ∉ (baseOf fields).map Prod.fst ∧
      (tierName t ++ "_free") ∉ (baseOf fields).map Prod.fst := by
    intro t ht
    rw [baseOf_keys]
    exact ⟨total_not_fixed _, free_not_fixed _⟩
  have hfold := foldl_addTier_ok ts (baseOf fields) hgood hfresh hnodup
  simp only [lssystem_transform, buildBase_ok fields hfixed, htiers, pyIter]
  show (ts.foldlM addTier (baseOf fields)).bind (fun final => pure [final]) = _
  rw [hfold]
  rfl

lemma flat_keys (ts : List Json) :
    (ts.flatMap tierCols).map Prod.fst =
      ts.flatMap (fun t => [tierName t ++ "_total", tierName t ++ "_free"]) := by
  induction ts with
  | nil => rfl
  | cons t ts ih => simp [List.flatMap_cons, ih, tierCols]

lemma lookup_flat (ts : List Json) (hnodup : (ts.map tierName).Nodup) (t : Json)
    (ht : t ∈ ts) :
    ((ts.flatMap tierCols).lookup (tierName t ++ "_total") = some (tierCap t)) ∧
    ((ts.flatMap tierCols).lookup (tierName t ++ "_free") = some (tierFree t)) := by
  induction ts with
  | nil => cases ht
  | cons u ts ih =>
    obtain ⟨hne, hnd⟩ := List.nodup_cons.mp hnodup
    rcases List.mem_cons.mp ht with rfl | ht'
    · constructor
      · simp [List.flatMap_cons, tierCols, List.lookup]
      · have h1 : ((tierName t ++ "_free") == (tierName t ++ "_total")) = false :=
          beq_eq_false_iff_ne.mpr (free_ne_total _ _)
        simp [List.flatMap_cons, tierCols, List.lookup, h1]
    · have hun : tierName t ≠ tierName u :=
        fun he => hne (he ▸ List.mem_map_of_mem tierName ht')
      have h1 : ((tierName t ++ "_total") == (tierName u ++ "_total")) = false :=
        beq_eq_false_iff_ne.mpr (fun he => hun (str_append_right_inj _ _ _ he))
      have h2 : ((tierName t ++ "_total") == (tierName u ++ "_free")) = false :=
        beq_eq_false_iff_ne.mpr (total_ne_free _ _)
      have h3 : ((tierName t ++ "_free") == (tierName u ++ "_total")) = false :=
        beq_eq_false_iff_ne.mpr (free_ne_total _ _)
      have h4 : ((tierName t ++ "_free") == (tierName u ++ "_free")) = false :=
        beq_eq_false_iff_ne.mpr (fun he => hun (str_append_right_inj _ _ _ he))
      have hih := ih hnd ht'
      rw [List.flatMap_cons]
      constructor
      · rw [show tierCols u ++ ts.flatMap tierCols = (tierName u ++ "_total", tierCap u) :: (tierName u ++ "_free", tierFree u) :: ts.flatMap tierCols from rfl]
        simp only [List.lookup, h1, h2]
        exact hih.1
      · rw [show tierCols u ++ ts.flatMap tierCols = (tierName u ++ "_total", tierCap u) :: (tierName u ++ "_free", tierFree u) :: ts.flatMap tierCols from rfl]
        simp only [List.lookup, h3, h4]
        exact hih.2

lemma excluded_not_key (fields : List (String × Json)) (ts : List Json) (x : String)
    (hfix : x ∉ fixedLabels)
    (hnt : ∀ tn : String, ¬ (tn ++ "_total" = x))
    (hnf : ∀ tn : String, ¬ (tn ++ "_free" = x)) :
    x ∉ (baseOf fields ++ ts.flatMap tierCols).map Prod.fst := by
  simp only [List.map_append, List.mem_append, baseOf_keys, flat_keys, not_or]
  refine ⟨hfix, ?_⟩
  intro hx
  obtain ⟨t, ht, hmem⟩ := List.mem_flatMap.mp hx
  simp only [List.mem_cons, List.not_mem_nil, or_false] at hmem
  rcases hmem with h | h
  · exact hnt (tierName t) h.symm
  · exact hnf (tierName t) h.symm

/-- C5: for every well-formed system-summary response, the dedicated
transform produces exactly one data row whose columns are the fixed named
summary columns (the commented-out fields `Quorum lease` and `NAS key`
excluded) plus, per tier entry, the dynamic columns `{tierName}_total`
and `{tierName}_free` carrying that tier's total and free capacity. -/
theorem C5_lssystem_single_row (fields : List (String × Json)) (ts : List Json)
    (htiers : fields.lookup "tiers" = some (Json.arr ts))
    (hfixed : fixedFields.all (fun p => (fields.lookup p.2).isSome) = true)
    (hgood : ts.all isGoodTier = true)
    (hnodup : (ts.map tierName).Nodup) :
    lssystem_transform (Json.obj fields) = .ok [baseOf fields ++ ts.flatMap tierCols] ∧
    (baseOf fields ++ ts.flatMap tierCols).map Prod.fst =
      fixedLabels ++ ts.flatMap (fun t => [tierName t ++ "_total", tierName t ++ "_free"]) ∧
    "Quorum lease" ∉ (baseOf fields ++ ts.flatMap tierCols).map Prod.fst ∧
    "NAS key" ∉ (baseOf fields ++ ts.flatMap tierCols).map Prod.fst ∧
    (∀ t ∈ ts,
      (baseOf fields ++ ts.flatMap tierCols).lookup (tierName t ++ "_total") = some (tierCap t) ∧
      (baseOf fields ++ ts.flatMap tierCols).lookup (tierName t ++ "_free") = some (tierFree t)) := by
  have hfixed' : ∀ p ∈ fixedFields, (fields.lookup p.2).isSome = true :=
    fun p hp => List.all_eq_true.mp hfixed p hp
  have hgood' : ∀ t ∈ ts, isGoodTier t = true :=
    fun t ht => List.all_eq_true.mp hgood t ht
  refine ⟨lssystem_transform_ok fields ts htiers hfixed' hgood' hnodup, ?_, ?_, ?_, ?_⟩
  · simp [List.map_append, baseOf_keys, flat_keys]
  · exact excluded_not_key fields ts "Quorum lease" (by decide)
      (fun tn => ne_of_drop tn "_total" "Quorum lease" (by decide))
      (fun tn => ne_of_drop tn "_free" "Quorum lease" (by decide))
  · exact excluded_not_key fields ts "NAS key" (by decide)
      (fun tn => ne_of_drop tn "_total" "NAS key" (by decide))
      (fun tn => ne_of_drop tn "_free" "NAS key" (by decide))
  · intro t ht
    have h1 := lookup_flat ts hnodup t ht
    constructor
    · rw [lookup_append_right _ _ _ (by rw [baseOf_keys]; exact total_not_fixed _)]
      exact h1.1
    · rw [lookup_append_right _ _ _ (by rw [baseOf_keys]; exact free_not_fixed _)]
      exact h1.2

@[simp] lemma except_bind_err {α β : Type} (e : Err) (f : α → Except Err β) :
    (Except.error e >>= f) = Except.error e := rfl

@[simp] lemma except_bind_ok {α β : Type} (a : α) (f : α → Except Err β) :
    (Except.ok a >>= f) = f a := rfl

@[simp] lemma except_map_ok {α β : Type} (g : α → β) (a : α) :
    (g <$> (Except.ok a : Except Err α)) = Except.ok (g a) := rfl

@[simp] lemma except_map_err {α β : Type} (g : α → β) (e : Err) :
    (g <$> (Except.error e : Except Err α)) = Except.error e := rfl

lemma getItem_err (fields : List (String × Json)) (k : String) (e : Err)
    (h : getItem fields k = .error e) : e = Err.exception := by
  simp only [getItem] at h
  cases hl : List.lookup k fields <;> rw [hl] at h
  · cases h
    rfl
  · cases h

lemma getItem_ok_isSome (fields : List (String × Json)) (k : String) (v : Json)
    (h : getItem fields k = .ok v) : (fields.lookup k).isSome = true := by
  simp only [getItem] at h
  cases hl : List.lookup k fields <;> rw [hl] at h
  · cases h
  · rfl

lemma addTier_err (acc : Record) (t : Json) (e : Err)
    (h : addTier acc t = .error e) : e = Err.exception := by
  cases t with
  | str s =>
    cases h
    rfl
  | arr es =>
    cases h
    rfl
  | obj tf =>
    simp only [addTier] at h
    cases hl : List.lookup "tier" tf <;> rw [hl] at h
    · cases h
      rfl
    · rename_i v
      cases v with
      | str tn =>
        simp only [except_bind_ok] at h
        cases hc : getItem tf "tier_capacity" with
        | error e' =>
          rw [hc] at h
          simp only [except_bind_err] at h
          cases h
          exact getItem_err _ _ _ hc
        | ok cap =>
          rw [hc] at h
          simp only [except_bind_ok] at h
          cases hf : getItem tf "tier_free_capacity" with
          | error e' =>
            rw [hf] at h
            simp only [except_bind_err] at h
            cases h
            exact getItem_err _ _ _ hf
          | ok free =>
            rw [hf] at h
            simp only [except_bind_ok] at h
            cases h
      | obj f2 =>
        cases h
        rfl
      | arr e2 =>
        cases h
        rfl

lemma addTier_ok_good (acc : Record) (t : Json) (r : Record)
    (h : addTier acc t = .ok r) : isGoodTier t = true := by
  cases t with
  | str s => cases h
  | arr es => cases h
  | obj tf =>
    simp only [addTier] at h
    cases hl : List.lookup "tier" tf <;> rw [hl] at h
    · cases h
    · rename_i v
      cases v with
      | str tn =>
        simp only [except_bind_ok] at h
        cases hc : getItem tf "tier_capacity" with
        | error e' =>
          rw [hc] at h
          cases h
        | ok cap =>
          rw [hc] at h
          simp only [except_bind_ok] at h
          cases hf : getItem tf "tier_free_capacity" with
          | error e' =>
            rw [hf] at h
            cases h
          | ok free =>
            simp only [isGoodTier, hl, getItem_ok_isSome _ _ _ hc,
              getItem_ok_isSome _ _ _ hf, Bool.and_self]
      | obj f2 => cases h
      | arr e2 => cases h

lemma mapM_err {α β : Type} (f : α → Except Err β) (l : List α) (e : Err)
    (hf : ∀ a e', f a = .error e' → e' = Err.exception)
    (h : l.mapM f = .error e) : e = Err.exception := by
  induction l with
  | nil => cases h
  | cons a l ih =>
    rw [List.mapM_cons] at h
    cases hfa : f a with
    | error e' =>
      rw [hfa] at h
      simp only [except_bind_err] at h
      cases h
      exact hf a _ hfa
    | ok b =>
      rw [hfa] at h
      simp only [except_bind_ok] at h
      cases hl : l.mapM f with
      | error e' =>
        rw [hl] at h
        simp only [except_bind_err] at h
        cases h
        exact ih hl
      | ok bs =>
        rw [hl] at h
        simp only [except_bind_ok] at h
        cases h

lemma mapM_ok_forall {α β : Type} (f : α → Except Err β) (l : List α) (r : List β)
    (h : l.mapM f = .ok r) : ∀ a ∈ l, ∃ b, f a = .ok b := by
  induction l generalizing r with
  | nil => intro a ha; cases ha
  | cons a l ih =>
    rw [List.mapM_cons] at h
    intro x hx
    cases hfa : f a with
    | error e' =>
      rw [hfa] at h
      simp only [except_bind_err] at h
      cases h
    | ok b =>
      rw [hfa] at h
      simp only [except_bind_ok] at h
      cases hl : l.mapM f with
      | error e' =>
        rw [hl] at h
        simp only [except_bind_err] at h
        cases h
      | ok bs =>
        rcases List.mem_cons.mp hx with rfl | hx'
        · exact ⟨b, hfa⟩
        · exact ih bs hl x hx'

lemma foldlM_addTier_err (ts : List Json) (b : Record) (e : Err)
    (h : ts.foldlM addTier b = .error e) : e = Err.exception := by
  induction ts generalizing b with
  | nil => cases h
  | cons t ts ih =>
    rw [List.foldlM_cons] at h
    cases hft : addTier b t with
    | error e' =>
      rw [hft] at h
      simp only [except_bind_err] at h
      cases h
      exact addTier_err _ _ _ hft
    | ok b' =>
      rw [hft] at h
      simp only [except_bind_ok] at h
      exact ih b' h

lemma foldlM_addTier_ok_forall (ts : List Json) (b r : Record)
    (h : ts.foldlM addTier b = .ok r) : ∀ t ∈ ts, isGoodTier t = true := by
  induction ts generalizing b with
  | nil => intro t ht; cases ht
  | cons t ts ih =>
    rw [List.foldlM_cons] at h
    intro x hx
    cases hft : addTier b t with
    | error e' =>
      rw [hft] at h
      simp only [except_bind_err] at h
      cases h
    | ok b' =>
      rw [hft] at h
      simp only [except_bind_ok] at h
      rcases List.mem_cons.mp hx with rfl | hx'
      · exact addTier_ok_good _ _ _ hft
      · exact ih b' h x hx'

lemma buildBase_err (fields : List (String × Json)) (e : Err)
    (h : buildBase fields = .error e) : e = Err.exception := by
  refine mapM_err _ _ _ ?_ h
  intro p e' hp
  cases hg : getItem fields p.2 with
  | error e2 =>
    rw [hg] at hp
    simp only [except_bind_err] at hp
    cases hp
    exact getItem_err _ _ _ hg
  | ok v =>
    rw [hg] at hp
    simp only [except_bind_ok] at hp
    cases hp

lemma buildBase_ok_isSome (fields : List (String × Json)) (base : Record)
    (h : buildBase fields = .ok base) :
    ∀ p ∈ fixedFields, (fields.lookup p.2).isSome = true := by
  intro p hp
  obtain ⟨b, hb⟩ := mapM_ok_forall _ _ _ h p hp
  cases hg : getItem fields p.2 with
  | error e2 =>
    rw [hg] at hb
    simp only [except_bind_err] at hb
    cases hb
  | ok v => exact getItem_ok_isSome _ _ _ hg

lemma good_not_missing (t : Json) (hg : isGoodTier t = true) :
    tierFieldsMissing t = false := by
  cases t with
  | str s => exact (Bool.false_ne_true hg).elim
  | arr es => exact (Bool.false_ne_true hg).elim
  | obj tf =>
    simp only [isGoodTier, Bool.and_eq_true] at hg
    obtain ⟨⟨hm, hcap⟩, hfree⟩ := hg
    cases hl : List.lookup "tier" tf <;> rw [hl] at hm
    · exact (Bool.false_ne_true hm).elim
    · simp only [tierFieldsMissing, hl, Option.isNone_some, Bool.false_or]
      obtain ⟨cap, hc⟩ := Option.isSome_iff_exists.mp hcap
      obtain ⟨free, hf⟩ := Option.isSome_iff_exists.mp hfree
      simp [hc, hf]

lemma lssystem_transform_err (j : Json) (e : Err)
    (h : lssystem_transform j = .error e) : e = Err.exception := by
  cases j with
  | str s =>
    cases h
    rfl
  | arr es =>
    cases h
    rfl
  | obj fields =>
    simp only [lssystem_transform] at h
    cases hb : buildBase fields with
    | error e2 =>
      rw [hb] at h
      simp only [except_bind_err] at h
      cases h
      exact buildBase_err _ _ hb
    | ok base =>
      rw [hb] at h
      simp only [except_bind_ok] at h
      cases hl : List.lookup "tiers" fields <;> rw [hl] at h
      · simp only [except_bind_err] at h
        cases h
        rfl
      · simp only [except_bind_ok] at h
        cases hf : (List.foldlM addTier base (pyIter _)) with
        | error e2 =>
          rw [hf] at h
          simp only [except_bind_err] at h
          cases h
          exact foldlM_addTier_err _ _ _ hf
        | ok r =>
          rw [hf] at h
          simp only [except_bind_ok] at h
          cases h

lemma lssystem_transform_ok_noMissing (j : Json) (v : List Record)
    (h : lssystem_transform j = .ok v) : requiredMissing j = false := by
  cases j with
  | str s => cases h
  | arr es => cases h
  | obj fields =>
    simp only [lssystem_transform] at h
    cases hb : buildBase fields with
    | error e2 =>
      rw [hb] at h
      simp only [except_bind_err] at h
      cases h
    | ok base =>
      rw [hb] at h
      simp only [except_bind_ok] at h
      have hfix : fixedKeys.any (fun k => (List.lookup k fields).isNone) = false := by
        rw [← Bool.not_eq_true, List.any_eq_true]
        rintro ⟨k, hk, hkn⟩
        obtain ⟨p, hp, rfl⟩ := List.mem_map.mp hk
        have hs := buildBase_ok_isSome fields base hb p hp
        cases hlk : List.lookup p.2 fields
        · rw [hlk] at hs
          exact Bool.false_ne_true hs
        · rw [hlk] at hkn
          exact Bool.false_ne_true hkn
      cases hl : List.lookup "tiers" fields <;> rw [hl] at h
      · simp only [except_bind_err] at h
        cases h
      · rename_i tv
        simp only [except_bind_ok] at h
        simp only [requiredMissing, hl, hfix, Bool.false_or]
        cases tv with
        | str s2 =>
          rfl
        | obj f2 =>
          rfl
        | arr ts =>
          cases hf : List.foldlM addTier base ts with
          | error e2 =>
            rw [show pyIter (Json.arr ts) = ts from rfl, hf] at h
            simp only [except_bind_err] at h
            cases h
          | ok r =>
            rw [← Bool.not_eq_true, List.any_eq_true]
            rintro ⟨t, ht, hmiss⟩
            have hg := foldlM_addTier_ok_forall ts base r hf t ht
            rw [good_not_missing t hg] at hmiss
            exact Bool.false_ne_true hmiss

/-- C10: the system-summary transform reads a fixed set of field names
and each tier entry's `tier`, `tier_capacity` and `tier_free_capacity`;
for every response in which any of these keys is absent it raises an
unhandled exception, which is none of the five exit-code error kinds. -/
theorem C10_missing_key_is_exception (j : Json) (hmiss : requiredMissing j = true) :
    lssystem_transform j = .error Err.exception ∧
    (∀ n : Nat, Err.exception ≠ Err.exit n) := by
  refine ⟨?_, fun n h => by cases h⟩
  cases hres : lssystem_transform j with
  | error e => rw [lssystem_transform_err j e hres]
  | ok v =>
    rw [lssystem_transform_ok_noMissing j v hres] at hmiss
    exact (Bool.false_ne_true hmiss).elim

/-- The two tier entries of the concrete summary response below (the
mocked shape from the spec's test sketch). -/
def sampleTiers : List Json :=
  [Json.obj [("tier", Json.str "tier0_flash"), ("tier_capacity", Json.str "10.00TB"),
             ("tier_free_capacity", Json.str "4.00TB")],
   Json.obj [("tier", Json.str "tier1_enterprise"), ("tier_capacity", Json.str "20.00TB"),
             ("tier_free_capacity", Json.str "6.00TB")]]

/-- A concrete well-formed `lssystem` response: every fixed field present,
plus the commented-out fields and the two tiers above. -/
def sampleSummary : List (String × Json) :=
  [("product_name", Json.str "FlashSystem 9200"), ("name", Json.str "V7000"),
   ("id", Json.str "00000204A1C0"), ("code_level", Json.str "8.4.0.2"),
   ("console_IP", Json.str "10.0.0.10:443"), ("email_organization", Json.str "org"),
   ("email_contact", Json.str "me"), ("email_reply", Json.str "me@x.y"),
   ("email_contact_primary", Json.str "555"), ("auth_service_configured", Json.str "no"),
   ("auth_service_type", Json.str "tip"), ("enhanced_callhome", Json.str "on"),
   ("censor_callhome", Json.str "off"), ("quorum_lease", Json.str "short"),
   ("relationship_bandwidth_limit", Json.str "25"),
   ("total_drive_raw_capacity", Json.str "100TB"), ("physical_capacity", Json.str "90TB"),
   ("physical_free_capacity", Json.str "50TB"), ("easy_tier_acceleration", Json.str "off"),
   ("has_nas_key", Json.str "no"), ("compression_active", Json.str "no"),
   ("compression_virtual_capacity", Json.str "0"),
   ("compression_compressed_capacity", Json.str "0"),
   ("compression_uncompressed_capacity", Json.str "0"),
   ("deduplication_capacity_saving", Json.str "0"), ("cache_prefetch", Json.str "on"),
   ("tiers", Json.arr sampleTiers)]

/-- Witness for C5 at the concrete two-tier summary response. -/
theorem C5_lssystem_single_row_witness :
    lssystem_transform (Json.obj sampleSummary) =
      .ok [baseOf sampleSummary ++ sampleTiers.flatMap tierCols] ∧
    (baseOf sampleSummary ++ sampleTiers.flatMap tierCols).map Prod.fst =
      fixedLabels ++ sampleTiers.flatMap
        (fun t => [tierName t ++ "_total", tierName t ++ "_free"]) ∧
    "Quorum lease" ∉ (baseOf sampleSummary ++ sampleTiers.flatMap tierCols).map Prod.fst ∧
    "NAS key" ∉ (baseOf sampleSummary ++ sampleTiers.flatMap tierCols).map Prod.fst ∧
    (∀ t ∈ sampleTiers,
      (baseOf sampleSummary ++ sampleTiers.flatMap tierCols).lookup (tierName t ++ "_total") = some (tierCap t) ∧
      (baseOf sampleSummary ++ sampleTiers.flatMap tierCols).lookup (tierName t ++ "_free") = some (tierFree t)) :=
  C5_lssystem_single_row sampleSummary sampleTiers rfl rfl rfl (by decide)

/-- Witness for C10 at the empty-object response (every required key
absent). -/
theorem C10_missing_key_is_exception_witness :
    lssystem_transform (Json.obj []) = .error Err.exception ∧
    (∀ n : Nat, Err.exception ≠ Err.exit n) :=
  C10_missing_key_is_exception (Json.obj []) rfl

lemma addCols_cons (cs : List String) (p : String × Json) (r : Record) :
    addCols cs (p :: r) = addCols (if cs.contains p.1 then cs else cs ++ [p.1]) r := rfl

lemma contains_false_of_not_mem (cs : List String) (k : String) (h : k ∉ cs) :
    cs.contains k = false := by
  simpa using h

lemma contains_true_of_mem (cs : List String) (k : String) (h : k ∈ cs) :
    cs.contains k = true := by
  simpa using h

lemma addCols_sub (cs : List String) (r : Record)
    (h : ∀ k ∈ r.map Prod.fst, cs.contains k = true) : addCols cs r = cs := by
  induction r generalizing cs with
  | nil => rfl
  | cons p r ih =>
    rw [addCols_cons, if_pos (h p.1 (by simp))]
    exact ih cs (fun k hk => h k (by simp [hk]))

lemma addCols_fresh (cs : List String) (r : Record) (hn : (r.map Prod.fst).Nodup)
    (hf : ∀ k ∈ r.map Prod.fst, k ∉ cs) :
    addCols cs r = cs ++ r.map Prod.fst := by
  induction r generalizing cs with
  | nil =>
    simp only [List.map_nil, List.append_nil]
    rfl
  | cons p r ih =>
    obtain ⟨hne, hnd⟩ := List.nodup_cons.mp hn
    have hp1 : p.1 ∉ cs := hf p.1 (by simp)
    rw [addCols_cons, if_neg (by simpa using hp1)]
    rw [ih (cs ++ [p.1]) hnd ?_]
    · simp
    · intro k hk
      simp only [List.mem_append, List.mem_cons, List.not_mem_nil, or_false, not_or]
      exact ⟨hf k (by simp [hk]), fun he => hne (he ▸ hk)⟩

lemma foldl_addCols_const (rs : List Record) (cs : List String)
    (h : ∀ r ∈ rs, addCols cs r = cs) : rs.foldl addCols cs = cs := by
  induction rs with
  | nil => rfl
  | cons r rs ih =>
    rw [List.foldl_cons, h r (by simp)]
    exact ih (fun q hq => h q (by simp [hq]))

lemma lookup_self (r : Record) (hn : (r.map Prod.fst).Nodup) :
    (r.map Prod.fst).map (fun c => r.lookup c) = r.map (fun p => some p.2) := by
  induction r with
  | nil => rfl
  | cons p r ih =>
    obtain ⟨hne, hnd⟩ := List.nodup_cons.mp hn
    simp only [List.map_cons]
    have hhead : List.lookup p.1 (p :: r) = some p.2 := by
      simp [List.lookup]
    have htail : ∀ k ∈ r.map Prod.fst, List.lookup k (p :: r) = List.lookup k r := by
      intro k hk
      have hkne : (k == p.1) = false :=
        beq_eq_false_iff_ne.mpr (fun he => hne (he ▸ hk))
      simp [List.lookup, hkne]
    rw [hhead, List.map_congr_left htail, ih hnd]

/-- Counterexample to C6: two records with different keys produce the
header `["a", "b"]` — the first-appearance union — not the first record's
key set `["a"]`. -/
theorem C6_counterexample :
    dfColumns [[("a", Json.str "1")], [("b", Json.str "2")]] ≠
      ([("a", Json.str "1")] : Record).map Prod.fst ∧
    dfColumns [[("a", Json.str "1")], [("b", Json.str "2")]] = ["a", "b"] := by
  have h2 : dfColumns [[("a", Json.str "1")], [("b", Json.str "2")]] = ["a", "b"] := rfl
  refine ⟨?_, h2⟩
  rw [h2]
  decide

/-- C6 (amended): the sheet header is the first-appearance-ordered union
of all records' keys; whenever every record carries exactly the first
record's ordered key set (the homogeneous case the API produces), the
header equals the first record's key set and the rows are the records'
values aligned to it in order. -/
theorem C6_header_from_records_amended (records : List Record) (r0 : Record)
    (h0 : records.head? = some r0)
    (huni : ∀ r ∈ records, r.map Prod.fst = r0.map Prod.fst)
    (hnodup : (r0.map Prod.fst).Nodup) :
    dfColumns records = r0.map Prod.fst ∧
    buildRows records = ((r0.map Prod.fst).map (fun c => some (Json.str c))) ::
      records.map (fun r => r.map (fun p => some p.2)) := by
  cases records with
  | nil => cases h0
  | cons a rs =>
    have ha : a = r0 := by simpa using h0
    subst ha
    have hcols : dfColumns (a :: rs) = a.map Prod.fst := by
      show (a :: rs).foldl addCols [] = a.map Prod.fst
      rw [List.foldl_cons]
      have h1 : addCols [] a = a.map Prod.fst := by
        rw [addCols_fresh [] a hnodup (fun k _ => List.not_mem_nil k)]
        simp
      rw [h1]
      exact foldl_addCols_const rs (a.map Prod.fst) (fun r hr =>
        addCols_sub _ _ (fun k hk =>
          contains_true_of_mem _ _ ((huni r (by simp [hr])) ▸ hk)))
    refine ⟨hcols, ?_⟩
    simp only [buildRows, hcols, dfRows]
    congr 1
    apply List.map_congr_left
    intro r hr
    rw [← huni r hr]
    exact lookup_self r ((huni r hr) ▸ hnodup)

/-- Witness for the amended C6 on a homogeneous two-record result. -/
theorem C6_header_from_records_amended_witness :
    dfColumns [[("id", Json.str "0"), ("name", Json.str "x")],
               [("id", Json.str "1"), ("name", Json.str "y")]] =
      ([("id", Json.str "0"), ("name", Json.str "x")] : Record).map Prod.fst ∧
    buildRows [[("id", Json.str "0"), ("name", Json.str "x")],
               [("id", Json.str "1"), ("name", Json.str "y")]] =
      ((([("id", Json.str "0"), ("name", Json.str "x")] : Record).map Prod.fst).map
        (fun c => some (Json.str c))) ::
      ([[("id", Json.str "0"), ("name", Json.str "x")],
        [("id", Json.str "1"), ("name", Json.str "y")]] : List Record).map
        (fun r => r.map (fun p => some p.2)) :=
  C6_header_from_records_amended _ _ rfl
    (by
      intro r hr
      simp only [List.mem_cons, List.not_mem_nil, or_false] at hr
      rcases hr with rfl | rfl <;> rfl)
    (by decide)

lemma check_connection_err (env : NetEnv) (s : RunState) (e : Err)
    (h : (check_connection env s).1 = .error e) : e = Err.exception := by
  simp only [check_connection] at h
  split at h
  · cases h
    rfl
  · cases h

lemma save_excel_err (env : NetEnv) (wb : List Sheet) (s : RunState) (e : Err)
    (h : (save_excel env wb s).1 = .error e) : e = .exit 2 := by
  simp only [save_excel] at h
  split at h
  · cases h
  · cases h
    rfl

lemma jrecords_err (j : Json) (e : Err) (h : jrecords j = .error e) :
    e = Err.exception := by
  cases j with
  | str s =>
    cases h
    rfl
  | obj f =>
    cases h
    rfl
  | arr es =>
    refine mapM_err _ _ _ ?_ h
    intro a e' ha
    cases a with
    | str s =>
      cases ha
      rfl
    | obj f => cases ha
    | arr es2 =>
      cases ha
      rfl

lemma run_command_no_exit5 (env : NetEnv) (role : Option String) (cmd : String)
    (s : RunState) (hls : isReadName cmd = true) (e : Err)
    (h : (run_command env role cmd s).1 = .error e) : e ≠ .exit 5 := by
  simp only [run_command] at h
  rcases hc : check_connection env s with ⟨rc, s1⟩
  rw [hc] at h
  rcases rc with e1 | u
  · simp only [] at h
    cases h
    have he1 := check_connection_err env s _ (by rw [hc])
    simp [he1]
  · rw [check_ls cmd role hls] at h
    simp only [] at h
    split at h
    · cases h
    · cases h
      simp

lemma fetch_records_no_exit5 (env : NetEnv) (role : Option String) (cmd : String)
    (s : RunState) (hls : isReadName cmd = true) (e : Err)
    (h : (fetch_records env role cmd s).1 = .error e) : e ≠ .exit 5 := by
  simp only [fetch_records] at h
  split at h
  · simp only [format_lssystem_to_excel] at h
    rcases hr : run_command env role "lssystem" s with ⟨rr, s1⟩
    rw [hr] at h
    rcases rr with e1 | j
    · simp only [] at h
      cases h
      exact run_command_no_exit5 env role "lssystem" s rfl _ (by rw [hr])
    · simp only [] at h
      have := lssystem_transform_err j e h
      simp [this]
  · rcases hr : run_command env role cmd s with ⟨rr, s1⟩
    rw [hr] at h
    rcases rr with e1 | j
    · simp only [] at h
      cases h
      exact run_command_no_exit5 env role cmd s hls _ (by rw [hr])
    · simp only [] at h
      have := jrecords_err j e h
      simp [this]

lemma parse_no_exit5 (env : NetEnv) (role : Option String) (cmd : String)
    (s : RunState) (hls : isReadName cmd = true) (e : Err)
    (h : (parse_command_to_excel env role cmd s).1 = .error e) : e ≠ .exit 5 := by
  simp only [parse_command_to_excel] at h
  by_cases hfr : s.first_run
  · simp only [hfr, if_true] at h
    rcases hf : fetch_records env role cmd { s with first_run := false } with ⟨rf, s2⟩
    rw [hf] at h
    rcases rf with e1 | records
    · simp only [] at h
      cases h
      exact fetch_records_no_exit5 env role cmd _ hls _ (by rw [hf])
    · simp only [] at h
      have := save_excel_err env _ s2 e h
      simp [this]
  · have hfr' : s.first_run = false := by simpa using hfr
    simp only [hfr', Bool.false_eq_true, if_false] at h
    rcases hd : s.disk with _ | sheets <;> rw [hd] at h
    · simp only [] at h
      cases h
      simp
    · simp only [] at h
      rcases hf : fetch_records env role cmd s with ⟨rf, s2⟩
      rw [hf] at h
      rcases rf with e1 | records
      · simp only [] at h
        cases h
        exact fetch_records_no_exit5 env role cmd s hls _ (by rw [hf])
      · simp only [] at h
        have := save_excel_err env _ s2 e h
        simp [this]

lemma report_loop_no_exit5 (env : NetEnv) (role : Option String) (cmds : List String)
    (s : RunState) (hls : ∀ c ∈ cmds, isReadName c = true) (e : Err)
    (h : (report_loop env role cmds s).1 = .error e) : e ≠ .exit 5 := by
  induction cmds generalizing s with
  | nil => cases h
  | cons c cs ih =>
    simp only [report_loop] at h
    rcases hp : parse_command_to_excel env role c s with ⟨rp, s1⟩
    rw [hp] at h
    rcases rp with e1 | u
    · simp only [] at h
      cases h
      exact parse_no_exit5 env role c s (hls c (by simp)) _ (by rw [hp])
    · exact ih s1 (fun q hq => hls q (by simp [hq])) h

/-- C9: every command in the fixed report list begins with `ls`, so the
authorization check returns true for every possible role on every
command issued during report generation, and no run of the report
pipeline can terminate through the authorization-failure path (exit
code 5). -/
theorem C9_report_never_exit5 :
    (∀ c ∈ report_commands, strStartsWith c "ls" = true) ∧
    (∀ c ∈ report_commands, ∀ role : Option String,
       check_user_rights c role = .ok true) ∧
    (∀ (env : NetEnv) (role : Option String) (s : RunState),
       (generate_excel_report env role s).1 ≠ .error (.exit 5)) := by
  refine ⟨by decide, ?_, ?_⟩
  · intro c hc role
    refine check_ls c role ?_
    have hall : ∀ c ∈ report_commands, isReadName c = true := by decide
    exact hall c hc
  · intro env role s h
    exact report_loop_no_exit5 env role report_commands s (by decide) _ h rfl

/-- Witness for C9 at a sample command and role. -/
theorem C9_report_never_exit5_witness :
    check_user_rights "lseventlog" (some "Monitor") = .ok true :=
  C9_report_never_exit5.2.1 "lseventlog" (by decide) (some "Monitor")
